import Mathlib

/-!
Shallow embedding of the `dnsfilter` package (dnsfilter/dnsfilter.go): the DNS
filtering decision pipeline, the rewrite resolver, the blocked-service matcher,
the rule-engine hot-reload manager, and the `Reason` taxonomy.

Modelling conventions:
* Go `int` / `int64` become `Int`; unsigned conversions are explicit `% 2^64`.
* Go slices become `List`; a `nil` slice and an empty slice are conflated as
  `[]` (the external engine only ever hands out `nil` or non-empty host-rule
  slices, so the two are indistinguishable in every reachable state).
* `net.IP` becomes a list of bytes (`List Nat`).
* Fallible Go calls return `Except String` / pair with `Option String` errors.
* The `engineLock` (`sync.RWMutex`) write side is a boolean in the state;
  an operation that would block forever on `RLock` returns `none`.
* The external `urlfilter` engine (out of scope per the design) is a function
  value `Engine`; the external constructors used by `createFilteringEngine`
  are fields of `ExtDeps`.
-/

namespace AdGuard

/-- DNS query type constant `dns.TypeA` (miekg/dns). -/
def typeA : Nat := 1

/-- DNS query type constant `dns.TypeCNAME` (miekg/dns). -/
def typeCNAME : Nat := 5

/-- DNS query type constant `dns.TypeAAAA` (miekg/dns). -/
def typeAAAA : Nat := 28

/-- `Reason` is a Go `int` enum (dnsfilter.go lines 108-138). -/
abbrev Reason := Int

def NotFilteredNotFound : Reason := 0

def NotFilteredWhiteList : Reason := 1

def NotFilteredError : Reason := 2

def FilteredBlackList : Reason := 3

def FilteredSafeBrowsing : Reason := 4

def FilteredParental : Reason := 5

def FilteredInvalid : Reason := 6

def FilteredSafeSearch : Reason := 7

def FilteredBlockedService : Reason := 8

def ReasonRewrite : Reason := 9

/-- The `reasonNames` table (dnsfilter.go lines 140-153). -/
def reasonNames : List String :=
  ["NotFilteredNotFound",
   "NotFilteredWhiteList",
   "NotFilteredError",
   "FilteredBlackList",
   "FilteredSafeBrowsing",
   "FilteredParental",
   "FilteredInvalid",
   "FilteredSafeSearch",
   "FilteredBlockedService",
   "Rewrite"]

/-- Go's conversion `uint(r)` of a 64-bit `int` `r`: two's-complement
reinterpretation, i.e. `r` modulo `2^64`, as a natural number. -/
def goUint64 (r : Int) : Nat := (r % (2 : Int) ^ 64).toNat

/-- `Reason.String` (dnsfilter.go lines 155-160): out-of-range values give
`""`, in-range values index `reasonNames`. -/
def reasonString (r : Reason) : String :=
  if goUint64 r ≥ reasonNames.length then ""
  else reasonNames.getD r.toNat ""

/-- `Reason.Matched` (dnsfilter.go lines 268-271). -/
def reasonMatched (r : Reason) : Bool := r != NotFilteredNotFound

/-- `net.IP` as a byte list; `nil` is `[]`. -/
abbrev IP := List Nat

/-- `net.IP.To4` from the Go standard library: 4-byte addresses unchanged,
IPv4-mapped 16-byte addresses truncated to their last 4 bytes, everything
else `nil`. -/
def ipTo4 (ip : IP) : IP :=
  if ip.length == 4 then ip
  else if ip.length == 16 && (ip.take 10).all (· == 0)
          && ip.getD 10 0 == 255 && ip.getD 11 0 == 255 then ip.drop 12
  else []

/-- `rules.NetworkRule` at the external `urlfilter` boundary: a pattern rule
exposing its whitelist flag, text, owning filter-list ID, and its `Match`
behaviour on the request synthesized for a hostname. -/
structure NetworkRule where
  whitelist : Bool := false
  text : String := ""
  filterListID : Int := 0
  matchesHostname : String → Bool := fun _ => false

/-- `rules.HostRule` at the external `urlfilter` boundary. -/
structure HostRule where
  text : String := ""
  filterListID : Int := 0
  ip : IP := []

/-- The outcome of `urlfilter.DNSEngine.Match`: at most one network rule, or
host rules (V4/V6). `nil` slices are `[]`. -/
structure DNSResult where
  networkRule : Option NetworkRule := none
  hostRulesV4 : List HostRule := []
  hostRulesV6 : List HostRule := []

/-- An installed `urlfilter.DNSEngine`: `Match(hostname, clientTags)`,
returning `none` when no rule matched (Go's `ok == false`). -/
abbrev Engine := String → List String → Option DNSResult

/-- `Result` (dnsfilter.go lines 252-266). The zero value is the
all-defaults record. -/
structure Result where
  isFiltered : Bool := false
  reason : Reason := NotFilteredNotFound
  rule : String := ""
  ip : IP := []
  filterID : Int := 0
  canonName : String := ""
  ipList : List IP := []
  serviceName : String := ""
  deriving DecidableEq

/-- `RewriteEntry` (rewrites.go): domain pattern, answer, record type
(the Go field `Type`; `Type` is a Lean keyword, so `rtype`), parsed IP. -/
structure RewriteEntry where
  domain : String := ""
  answer : String := ""
  rtype : Nat := 0
  ip : IP := []
  deriving DecidableEq

/-- `ServiceEntry` (dnsfilter.go lines 22-26). -/
structure ServiceEntry where
  name : String := ""
  rules : List NetworkRule := []

/-- `RequestFilteringSettings` (dnsfilter.go lines 28-36). -/
structure RequestFilteringSettings where
  filteringEnabled : Bool := false
  safeSearchEnabled : Bool := false
  safeBrowsingEnabled : Bool := false
  parentalEnabled : Bool := false
  clientTags : List String := []
  servicesRules : List ServiceEntry := []

/-- `Filter` (dnsfilter.go lines 101-106). `Data` bytes are a string. -/
structure Filter where
  id : Int := 0
  data : String := ""
  filePath : String := ""

/-- ASCII lower-casing of one character (the fragment of Go's
`strings.ToLower` relevant to DNS hostnames), structurally computable. -/
def asciiToLower (c : Char) : Char :=
  if 65 ≤ c.toNat ∧ c.toNat ≤ 90 then Char.ofNat (c.toNat + 32) else c

/-- `strings.ToLower` on a hostname, as a structural recursion over the
character list (the library `String.toLower` does not reduce in the kernel). -/
def strToLower (s : String) : String := ⟨s.data.map asciiToLower⟩

/-- `strings.HasPrefix` via the structural `List.isPrefixOf`. -/
def strStartsWith (s pre : String) : Bool := pre.data.isPrefixOf s.data

/-- `strings.HasSuffix` via the structural `List.isSuffixOf`. -/
def strEndsWith (s suf : String) : Bool := suf.data.isSuffixOf s.data

/-- Dropping the first `n` characters of a string, structurally. -/
def strDrop (s : String) (n : Nat) : String := ⟨s.data.drop n⟩

/-- Modelled from the spec: `findRewrites` lives in rewrites.go, which is not
part of the visible source. Per the design ("The rewrite table is an ordered
collection; lookup returns all entries matching a given hostname, in table
order", entries match a "domain pattern (exact or wildcard)"), it returns all
entries whose domain equals the host exactly or is a `*.`-wildcard suffix of
it, preserving table order. -/
def findRewrites (rews : List RewriteEntry) (host : String) : List RewriteEntry :=
  rews.filter (fun r =>
    r.domain == host ||
      (strStartsWith r.domain "*." && strEndsWith host (strDrop r.domain 1)))

/-- The final phase of `processRewrites` (dnsfilter.go lines 395-400): scan
the final entry set and append the addresses of the non-CNAME entries whose
type equals the queried type. -/
def applyRewriteAnswers (qtype : Nat) (rr : List RewriteEntry) (res : Result) : Result :=
  rr.foldl
    (fun acc r =>
      if r.rtype != typeCNAME && r.rtype == qtype then
        { acc with ipList := acc.ipList ++ [r.ip] }
      else acc)
    res

/-- `findRewrites` only selects entries of the table. -/
lemma findRewrites_sublist (rews : List RewriteEntry) (host : String) :
    (findRewrites rews host).Sublist rews :=
  List.filter_sublist _

/-- The CNAME-substitution loop of `processRewrites` (dnsfilter.go lines
382-400), with the already-substituted set `cnames` made explicit. Totality
is proved by well-founded recursion: every iteration inserts into `cnames`
a fresh element of the finite set of answers reachable from the table. -/
def processRewritesLoop (rews : List RewriteEntry) (qtype : Nat)
    (rr : List RewriteEntry) (cnames : Finset String) (res : Result) : Result :=
  match rr with
  | [] => applyRewriteAnswers qtype rr res
  | e :: rest =>
    if e.rtype = typeCNAME then
      if hm : e.answer ∈ cnames then res
      else
        processRewritesLoop rews qtype (findRewrites rews e.answer)
          (insert e.answer cnames) { res with canonName := e.answer }
    else applyRewriteAnswers qtype (e :: rest) res
  termination_by
    (((rews.map RewriteEntry.answer).toFinset ∪
       (rr.map RewriteEntry.answer).toFinset) \ cnames).card
  decreasing_by
    apply Finset.card_lt_card
    refine (Finset.ssubset_iff_of_subset ?_).mpr ⟨e.answer, ?_, ?_⟩
    · intro x hx
      rw [Finset.mem_sdiff] at hx ⊢
      refine ⟨?_, fun hc => hx.2 (Finset.mem_insert_of_mem hc)⟩
      rcases Finset.mem_union.mp hx.1 with h | h
      · exact Finset.mem_union_left _ h
      · rw [List.mem_toFinset, List.mem_map] at h
        obtain ⟨r, hr, rfl⟩ := h
        exact Finset.mem_union_left _ (List.mem_toFinset.mpr
          (List.mem_map.mpr ⟨r, (findRewrites_sublist rews e.answer).subset hr, rfl⟩))
    · rw [Finset.mem_sdiff]
      exact ⟨Finset.mem_union_right _ (List.mem_toFinset.mpr
        (List.mem_map.mpr ⟨e, List.mem_cons_self e rest, rfl⟩)), hm⟩
    · rw [Finset.mem_sdiff]
      intro hc
      exact hc.2 (Finset.mem_insert_self _ _)

/-- `processRewrites` (dnsfilter.go lines 369-403), as a function of the
rewrite table (the method reads `d.Rewrites` under `confLock.RLock`). -/
def processRewrites (rews : List RewriteEntry) (host : String) (qtype : Nat) : Result :=
  let rr := findRewrites rews host
  let res : Result := if rr.isEmpty then {} else { reason := ReasonRewrite }
  processRewritesLoop rews qtype rr ∅ res

/-- `matchBlockedServicesRules` (dnsfilter.go lines 405-423): services in
order, rules in order, first match wins. `rules.NewRequestForHostname(host)`
and `rule.Match(req)` are external; their composite is the rule's
`matchesHostname` behaviour. -/
def matchBlockedServicesRules (host : String) (svcs : List ServiceEntry) : Result :=
  match svcs with
  | [] => {}
  | s :: rest =>
    match s.rules.find? (fun rule => rule.matchesHostname host) with
    | some rule =>
      { reason := FilteredBlockedService, isFiltered := true,
        serviceName := s.name, rule := rule.text }
    | none => matchBlockedServicesRules host rest

/-- `filterlist.RuleList` at the external boundary: either an in-memory
`StringRuleList` (with its visible fields) or an externally constructed
file-backed list, identified by an opaque handle. -/
inductive RuleList where
  | str (id : Int) (rulesText : String) (ignoreCosmetic : Bool)
  | file (handle : Nat)

/-- The external dependencies of `createFilteringEngine`: `os.Stat`
(`fileExists`), `ioutil.ReadFile`, the `filterlist` constructors, the
`urlfilter` engine constructor, and `runtime.GOOS == "windows"`. All of
these are outside the visible core (spec section 1), so their outcomes are
parameters. `newRuleStorage` returns an opaque storage handle. -/
structure ExtDeps where
  fileExists : String → Bool := fun _ => false
  readFile : String → Except String String := fun _ => .ok ""
  newFileRuleList : Int → String → Except String RuleList := fun _ _ => .error ""
  newRuleStorage : List RuleList → Except String Nat := fun _ => .ok 0
  newDNSEngine : Nat → Engine := fun _ _ _ => none
  goosWindows : Bool := false

/-- The per-filter branch of `createFilteringEngine` (dnsfilter.go lines
440-476): inline text for ID 0, an empty placeholder list for a missing
file, a fully-read in-memory list on Windows, a file-backed list otherwise. -/
def buildRuleList (ext : ExtDeps) (f : Filter) : Except String RuleList :=
  if f.id = 0 then .ok (.str 0 f.data true)
  else if !ext.fileExists f.filePath then .ok (.str f.id "" true)
  else if ext.goosWindows then
    match ext.readFile f.filePath with
    | .error e => .error ("ioutil.ReadFile(): " ++ f.filePath ++ ": " ++ e)
    | .ok data => .ok (.str f.id data true)
  else
    match ext.newFileRuleList f.id f.filePath with
    | .error e => .error ("filterlist.NewFileRuleList(): " ++ f.filePath ++ ": " ++ e)
    | .ok list => .ok list

/-- `createFilteringEngine` (dnsfilter.go lines 438-485): build the rule
lists (aborting on the first failure, as the Go loop returns), then the
storage, then the engine over it. -/
def createFilteringEngine (ext : ExtDeps) (filters : List Filter) :
    Except String (Nat × Engine) := do
  let listArray ← filters.mapM (buildRuleList ext)
  match ext.newRuleStorage listArray with
  | .error e => .error ("filterlist.NewRuleStorage(): " ++ e)
  | .ok st => .ok (st, ext.newDNSEngine st)

/-- Parameters passed to the filters-initializer goroutine (dnsfilter.go
lines 74-78). -/
structure FiltersInitializerParams where
  filters : List Filter := []
  whiteFilters : List Filter := []

/-- The `Dnsfilter` state (dnsfilter.go lines 80-99) as seen by the decision
pipeline and the hot-reload manager. `engineLockHeld` is the write side of
`engineLock`; `closedStorages` records every storage handle whose `Close()`
has been called; `chanQ` is the buffer of `filtersInitializerChan`; the three
classifier fields stand for the external safe-search / safe-browsing /
parental collaborators, modelled from the spec
("each exposes classify(host) -> (Result, error)"). -/
structure Dnsfilter where
  rulesStorage : Option Nat := none
  filteringEngine : Option Engine := none
  rulesStorageWhite : Option Nat := none
  filteringEngineWhite : Option Engine := none
  engineLockHeld : Bool := false
  closedStorages : List Nat := []
  rewrites : List RewriteEntry := []
  chanQ : List FiltersInitializerParams := []
  safeSearch : String → Result × Option String := fun _ => ({}, none)
  safeBrowsing : String → Result × Option String := fun _ => ({}, none)
  parental : String → Result × Option String := fun _ => ({}, none)

/-- `reset` (dnsfilter.go lines 234-241): close both current storages when
present. The engine/storage pointers themselves are not cleared. -/
def reset (d : Dnsfilter) : Dnsfilter :=
  { d with closedStorages :=
      d.closedStorages ++ d.rulesStorage.toList ++ d.rulesStorageWhite.toList }

/-- `initFiltering` (dnsfilter.go lines 488-507): take the engine write lock,
close the previous storages, build the block pair then the allow pair, and
only on success install both pairs and release the lock. Note that the two
error returns do not release the lock (the Go code has no `defer Unlock`). -/
def initFiltering (ext : ExtDeps) (d : Dnsfilter)
    (filters whiteFilters : List Filter) : Dnsfilter × Option String :=
  let d := { d with engineLockHeld := true }
  let d := reset d
  match createFilteringEngine ext filters with
  | .error e => (d, some e)
  | .ok (rs, fe) =>
    match createFilteringEngine ext whiteFilters with
    | .error e => (d, some e)
    | .ok (rsw, few) =>
      ({ d with rulesStorage := some rs, filteringEngine := some fe,
                rulesStorageWhite := some rsw, filteringEngineWhite := some few,
                engineLockHeld := false },
       none)

/-- Default host rule (Go's implicit zero for an indexing operation that the
engine contract keeps reachable only on non-empty slices). -/
def hostRuleDefault : HostRule := {}

/-- `matchHost` (dnsfilter.go lines 510-585). The function first acquires
`engineLock.RLock()`; if the write lock is held it blocks forever, which the
model renders as `none`. On the Go code's `rr.HostRulesV4 != nil` guards,
recall that `nil` and empty are conflated as `[]`, so `!isEmpty` plays the
role of `!= nil` and `headD` of the (then safe) index `[0]`. -/
def matchHost (d : Dnsfilter) (host : String) (qtype : Nat)
    (ctags : List String) (white : Bool) : Option (Result × Option String) :=
  if d.engineLockHeld then none else
  some (
    let engine := if white then d.filteringEngineWhite else d.filteringEngine
    match engine with
    | none => ({}, none)
    | some eng =>
      match eng host ctags with
      | none => ({}, none)
      | some rr =>
        match rr.networkRule with
        | some nr =>
          ({ filterID := nr.filterListID, rule := nr.text,
             reason := if nr.whitelist then NotFilteredWhiteList else FilteredBlackList,
             isFiltered := !nr.whitelist }, none)
        | none =>
          if qtype == typeA && !rr.hostRulesV4.isEmpty then
            let rule := rr.hostRulesV4.headD hostRuleDefault
            ({ filterID := rule.filterListID, rule := rule.text,
               reason := FilteredBlackList, isFiltered := true,
               ip := ipTo4 rule.ip }, none)
          else if qtype == typeAAAA && !rr.hostRulesV6.isEmpty then
            let rule := rr.hostRulesV6.headD hostRuleDefault
            ({ filterID := rule.filterListID, rule := rule.text,
               reason := FilteredBlackList, isFiltered := true,
               ip := rule.ip }, none)
          else if !rr.hostRulesV4.isEmpty || !rr.hostRulesV6.isEmpty then
            let rule := if !rr.hostRulesV4.isEmpty then rr.hostRulesV4.headD hostRuleDefault
                        else rr.hostRulesV6.headD hostRuleDefault
            ({ reason := FilteredBlackList, isFiltered := true,
               filterID := rule.filterListID, rule := rule.text, ip := [] }, none)
          else ({}, none))

/-- `CheckHostRules` (dnsfilter.go lines 274-280): rule lists only. -/
def CheckHostRules (d : Dnsfilter) (host : String) (qtype : Nat)
    (setts : RequestFilteringSettings) : Option (Result × Option String) :=
  if !setts.filteringEnabled then some ({}, none)
  else matchHost d host qtype setts.clientTags false

/-- The filter-list stage of `CheckHost` (dnsfilter.go lines 300-317).
Outer `none` means the stage blocked on the engine lock; `some (some out)`
means the stage returned `out` from `CheckHost`; `some none` means it fell
through to the next stage. -/
def checkHostFilters (d : Dnsfilter) (host : String) (qtype : Nat)
    (setts : RequestFilteringSettings) : Option (Option (Result × Option String)) :=
  if setts.filteringEnabled then
    match matchHost d host qtype setts.clientTags false with
    | none => none
    | some (result, err) =>
      if err.isSome then some (some (result, err))
      else if result.reason == FilteredBlackList then
        match matchHost d host qtype setts.clientTags true with
        | none => none
        | some (resultWhite, err2) =>
          if err2.isSome then some (some ({}, err2))
          else
            let result := if reasonMatched resultWhite.reason then {} else result
            if reasonMatched result.reason then some (some (result, none)) else some none
      else if reasonMatched result.reason then some (some (result, none))
      else some none
  else some none

/-- The common shape (per the source, repeated verbatim three times at
dnsfilter.go lines 326-358) of the safe-search / safe-browsing / parental
stages: a classifier error returns the zero Result at once (fail-open,
skipping the remaining stages), a match returns it, otherwise fall
through (`none`). -/
def checkHostClassifier (enabled : Bool) (classify : String → Result × Option String)
    (host : String) : Option (Result × Option String) :=
  if enabled then
    let (result, err) := classify host
    if err.isSome then some ({}, none)
    else if reasonMatched result.reason then some (result, none)
    else none
  else none

/-- `CheckHost` (dnsfilter.go lines 284-361): empty-host short circuit,
lower-casing, rewrites, rule lists with whitelist override, blocked
services, then the three classifier stages, defaulting to the zero Result.
Outer `none` means the call blocked on the engine lock. -/
def CheckHost (d : Dnsfilter) (host0 : String) (qtype : Nat)
    (setts : RequestFilteringSettings) : Option (Result × Option String) :=
  if host0 == "" then some ({ reason := NotFilteredNotFound }, none) else
  let host := strToLower host0
  let r0 := processRewrites d.rewrites host qtype
  if r0.reason == ReasonRewrite then some (r0, none) else
  match checkHostFilters d host qtype setts with
  | none => none
  | some (some out) => some out
  | some none =>
    some (
      let svc : Option (Result × Option String) :=
        if !setts.servicesRules.isEmpty then
          let result := matchBlockedServicesRules host setts.servicesRules
          if reasonMatched result.reason then some (result, none) else none
        else none
      match svc with
      | some out => out
      | none =>
        match checkHostClassifier setts.safeSearchEnabled d.safeSearch host with
        | some out => out
        | none =>
          match checkHostClassifier setts.safeBrowsingEnabled d.safeBrowsing host with
          | some out => out
          | none =>
            match checkHostClassifier setts.parentalEnabled d.parental host with
            | some out => out
            | none => ({}, none))

/-- The drain loop of the asynchronous `SetFilters` branch (dnsfilter.go
lines 193-201): non-blocking receives until the channel buffer is empty. -/
def drainLoop (q : List FiltersInitializerParams) : List FiltersInitializerParams :=
  match q with
  | [] => q
  | _ :: rest => drainLoop rest

/-- `SetFilters` (dnsfilter.go lines 184-215). Asynchronously: drain any
pending request, enqueue this one, report no error. Synchronously: run
`initFiltering` and return its error. -/
def SetFilters (ext : ExtDeps) (d : Dnsfilter)
    (filters whiteFilters : List Filter) (async : Bool) : Dnsfilter × Option String :=
  if async then
    ({ d with chanQ := drainLoop d.chanQ ++ [⟨filters, whiteFilters⟩] }, none)
  else
    initFiltering ext d filters whiteFilters

/-- One turn of the `filtersInitializer` worker loop (dnsfilter.go lines
218-227): receive a request (blocking when the queue is empty, rendered as a
no-op) and run `initFiltering` on it. -/
def filtersInitializerStep (ext : ExtDeps) (d : Dnsfilter) : Dnsfilter :=
  match d.chanQ with
  | [] => d
  | params :: rest =>
    (initFiltering ext { d with chanQ := rest } params.filters params.whiteFilters).1

/-- The error component of a pipeline outcome; `none` both for a nil Go
error and for a call that never returns. -/
def errOf (o : Option (Result × Option String)) : Option String :=
  o.bind (fun p => p.2)

/-! ### Helper lemmas -/

lemma processRewritesLoop_nil (rews : List RewriteEntry) (qtype : Nat)
    (cnames : Finset String) (res : Result) :
    processRewritesLoop rews qtype [] cnames res = res := by
  rw [processRewritesLoop.eq_def]
  simp [applyRewriteAnswers]

lemma processRewritesLoop_exitHead (rews : List RewriteEntry) (qtype : Nat)
    (e : RewriteEntry) (rest : List RewriteEntry) (cnames : Finset String) (res : Result)
    (ht : e.rtype ≠ typeCNAME) :
    processRewritesLoop rews qtype (e :: rest) cnames res =
      applyRewriteAnswers qtype (e :: rest) res := by
  rw [processRewritesLoop.eq_def]
  simp [ht]

lemma processRewritesLoop_stepNew (rews : List RewriteEntry) (qtype : Nat)
    (e : RewriteEntry) (rest : List RewriteEntry) (cnames : Finset String) (res : Result)
    (ht : e.rtype = typeCNAME) (hm : e.answer ∉ cnames) :
    processRewritesLoop rews qtype (e :: rest) cnames res =
      processRewritesLoop rews qtype (findRewrites rews e.answer)
        (insert e.answer cnames) { res with canonName := e.answer } := by
  rw [processRewritesLoop.eq_def]
  simp [ht, hm]

lemma processRewritesLoop_stepRepeat (rews : List RewriteEntry) (qtype : Nat)
    (e : RewriteEntry) (rest : List RewriteEntry) (cnames : Finset String) (res : Result)
    (ht : e.rtype = typeCNAME) (hm : e.answer ∈ cnames) :
    processRewritesLoop rews qtype (e :: rest) cnames res = res := by
  rw [processRewritesLoop.eq_def]
  simp [ht, hm]

/-- A host with no matching rewrite entries gets the zero Result from the
rewrite stage. -/
lemma processRewrites_noMatch (rews : List RewriteEntry) (host : String) (qtype : Nat)
    (h : findRewrites rews host = []) :
    processRewrites rews host qtype = {} := by
  rw [processRewrites]
  simp only [h, List.isEmpty_nil, if_pos]
  exact processRewritesLoop_nil rews qtype ∅ {}

/-- The final scan of `processRewrites` collects, in order, the addresses of
exactly the non-CNAME entries whose type equals the queried type. -/
lemma applyRewriteAnswers_eq (qtype : Nat) (rr : List RewriteEntry) (res : Result) :
    applyRewriteAnswers qtype rr res =
      { res with ipList := res.ipList ++
          (rr.filter (fun r => r.rtype != typeCNAME && r.rtype == qtype)).map RewriteEntry.ip } := by
  induction rr generalizing res with
  | nil => simp [applyRewriteAnswers]
  | cons e rest ih =>
    by_cases hc : (e.rtype != typeCNAME && e.rtype == qtype) = true
    · simp only [applyRewriteAnswers, List.foldl_cons, if_pos hc] at *
      rw [ih]
      simp [List.filter_cons, hc]
    · simp only [applyRewriteAnswers, List.foldl_cons, if_neg hc] at *
      rw [ih]
      simp [List.filter_cons, hc]

lemma drainLoop_eq_nil (q : List FiltersInitializerParams) : drainLoop q = [] := by
  induction q with
  | nil => rfl
  | cons p rest ih => simpa [drainLoop] using ih

/-- `find?` skips a prefix of non-matching elements and returns the first
match. -/
lemma find?_first {α : Type} (p : α → Bool) (pre : List α) (x : α) (post : List α)
    (hpre : ∀ y ∈ pre, p y = false) (hx : p x = true) :
    (pre ++ x :: post).find? p = some x := by
  induction pre with
  | nil => simp [List.find?_cons, hx]
  | cons a as ih =>
    have ha := hpre a (List.mem_cons_self a as)
    simp only [List.cons_append, List.find?_cons, ha]
    exact ih (fun y hy => hpre y (List.mem_cons_of_mem a hy))

/-- `matchHost` never produces a non-nil error: every return in the Go
function is `..., nil`. -/
lemma matchHost_snd (d : Dnsfilter) (host : String) (qtype : Nat)
    (ctags : List String) (white : Bool) (p : Result × Option String)
    (h : matchHost d host qtype ctags white = some p) : p.2 = none := by
  unfold matchHost at h
  split at h
  · exact absurd h (by simp)
  · injection h with h
    subst h
    dsimp only
    split
    · rfl
    · split
      · rfl
      · split
        · rfl
        · split
          · rfl
          · split
            · rfl
            · split
              · rfl
              · rfl

/-- The filter-list stage never surfaces a non-nil error. -/
lemma checkHostFilters_snd (d : Dnsfilter) (host : String) (qtype : Nat)
    (setts : RequestFilteringSettings) (out : Result × Option String)
    (h : checkHostFilters d host qtype setts = some (some out)) : out.2 = none := by
  unfold checkHostFilters at h
  split at h
  · rcases hb : matchHost d host qtype setts.clientTags false with _ | p
    · rw [hb] at h; exact absurd h (by simp)
    · rw [hb] at h
      have hbe := matchHost_snd d host qtype setts.clientTags false p hb
      obtain ⟨rb, eb⟩ := p
      subst hbe
      simp only [Option.isSome_none, Bool.false_eq_true, if_false] at h
      split at h
      · rcases hw : matchHost d host qtype setts.clientTags true with _ | q
        · rw [hw] at h; exact absurd h (by simp)
        · rw [hw] at h
          have hwe := matchHost_snd d host qtype setts.clientTags true q hw
          obtain ⟨rw, ew⟩ := q
          subst hwe
          simp only [Option.isSome_none, Bool.false_eq_true, if_false] at h
          by_cases hwm : reasonMatched rw.reason = true
          · simp only [hwm, if_pos] at h
            by_cases hzm : reasonMatched (Result.reason {}) = true
            · rw [if_pos hzm] at h
              injection h with h; injection h with h; subst h; rfl
            · rw [if_neg hzm] at h; exact absurd h (by simp)
          · simp only [hwm, Bool.false_eq_true, if_false] at h
            split at h
            · injection h with h; injection h with h; subst h; rfl
            · exact absurd h (by simp)
      · split at h
        · injection h with h; injection h with h; subst h; rfl
        · exact absurd h (by simp)
  · exact absurd h (by simp)

/-- A classifier stage never surfaces a non-nil error (errors are swallowed
into the zero Result). -/
lemma checkHostClassifier_snd (enabled : Bool) (classify : String → Result × Option String)
    (host : String) (out : Result × Option String)
    (h : checkHostClassifier enabled classify host = some out) : out.2 = none := by
  unfold checkHostClassifier at h
  split at h
  · rcases hc : classify host with ⟨result, err⟩
    rw [hc] at h
    dsimp only at h
    by_cases hs : err.isSome = true
    · rw [if_pos hs] at h
      injection h with h; subst h; rfl
    · rw [if_neg hs] at h
      by_cases hmt : reasonMatched result.reason = true
      · rw [if_pos hmt] at h; injection h with h; subst h; rfl
      · rw [if_neg hmt] at h; exact absurd h (by simp)
  · exact absurd h (by simp)

lemma foldl_setFilters_chanQ (ext : ExtDeps) (ps : List (List Filter × List Filter))
    (h : ps ≠ []) (d : Dnsfilter) :
    (ps.foldl (fun s p => (SetFilters ext s p.1 p.2 true).1) d).chanQ =
      [⟨(ps.getLast h).1, (ps.getLast h).2⟩] := by
  induction ps generalizing d with
  | nil => exact absurd rfl h
  | cons p rest ih =>
    cases rest with
    | nil => simp [SetFilters, drainLoop_eq_nil, List.getLast]
    | cons q qs =>
      rw [List.foldl_cons]
      rw [ih (by simp) ((SetFilters ext d p.1 p.2 true).1)]
      rw [List.getLast_cons_cons]

/-! ### Claims -/

/-- C10: `Reason.String` is total and never panics: the name table has ten
entries; for every 64-bit `Reason` value `r` with `0 ≤ r ≤ 9` it returns the
corresponding table entry (with `ReasonRewrite` mapping to `"Rewrite"`), and
for every 64-bit value outside that range, negative values included, it
returns the empty string. -/
theorem claim_C10_reasonString_total (r : Int)
    (hlo : -(2 ^ 63) ≤ r) (hhi : r < 2 ^ 63) :
    reasonNames.length = 10 ∧
    (0 ≤ r ∧ r ≤ 9 → reasonString r = reasonNames.getD r.toNat "") ∧
    ((r < 0 ∨ 9 < r) → reasonString r = "") ∧
    reasonString ReasonRewrite = "Rewrite" := by
  have hp63 : (2 : Int) ^ 63 = 9223372036854775808 := by norm_num
  have hp64 : (2 : Int) ^ 64 = 18446744073709551616 := by norm_num
  rw [hp63] at hlo hhi
  refine ⟨rfl, ?_, ?_, by decide⟩
  · rintro ⟨ha, hb⟩
    have hne : ¬ (goUint64 r ≥ reasonNames.length) := by
      have h10 : reasonNames.length = 10 := rfl
      rw [h10]
      unfold goUint64
      rw [hp64]
      omega
    rw [reasonString, if_neg hne]
  · intro hout
    have hge : goUint64 r ≥ reasonNames.length := by
      have h10 : reasonNames.length = 10 := rfl
      rw [h10]
      unfold goUint64
      rw [hp64]
      rcases hout with h | h <;> omega
    rw [reasonString, if_pos hge]

/-- C10 witness: a negative value yields `""` and `ReasonRewrite` yields
`"Rewrite"`, both obtained from the main theorem at concrete inputs. -/
theorem claim_C10_witness : reasonString (-1) = "" ∧ reasonString 9 = "Rewrite" :=
  ⟨(claim_C10_reasonString_total (-1) (by norm_num) (by norm_num)).2.2.1 (Or.inl (by norm_num)),
   (claim_C10_reasonString_total 9 (by norm_num) (by norm_num)).2.2.2⟩

/-- C5: for every query type and every settings value (and every engine,
rewrite table and classifier state), `CheckHost` with an empty host returns
the zero-reason, non-filtered Result with no error — no stage is consulted,
since the result is independent of all of them. -/
theorem claim_C5_empty_host (d : Dnsfilter) (qtype : Nat)
    (setts : RequestFilteringSettings) :
    CheckHost d "" qtype setts = some ({ reason := NotFilteredNotFound }, none) := by
  simp [CheckHost]

/-- C6: `matchBlockedServicesRules` scans services in order and rules in
order; with no matching rule anywhere it returns the zero Result, and the
first matching rule (earliest service, earliest rule) determines the Result:
`FilteredBlockedService`, filtered, that service's name, that rule's text. -/
theorem claim_C6_blocked_services (host : String) (svcs : List ServiceEntry) :
    ((∀ s ∈ svcs, ∀ r ∈ s.rules, r.matchesHostname host = false) →
      matchBlockedServicesRules host svcs = {}) ∧
    (∀ pre s post, svcs = pre ++ s :: post →
      (∀ s' ∈ pre, ∀ r ∈ s'.rules, r.matchesHostname host = false) →
      ∀ rpre rule rpost, s.rules = rpre ++ rule :: rpost →
        (∀ r' ∈ rpre, r'.matchesHostname host = false) →
        rule.matchesHostname host = true →
        matchBlockedServicesRules host svcs =
          { reason := FilteredBlockedService, isFiltered := true,
            serviceName := s.name, rule := rule.text }) := by
  constructor
  · intro hall
    induction svcs with
    | nil => rfl
    | cons s rest ih =>
      rw [matchBlockedServicesRules]
      have hnone : s.rules.find? (fun rule => rule.matchesHostname host) = none :=
        List.find?_eq_none.mpr fun x hx => by
          simp [hall s (List.mem_cons_self s rest) x hx]
      rw [hnone]
      exact ih fun s' hs' => hall s' (List.mem_cons_of_mem s hs')
  · intro pre s post hsv hpre rpre rule rpost hrules hrpre hrule
    subst hsv
    induction pre with
    | nil =>
      rw [List.nil_append, matchBlockedServicesRules, hrules,
        find?_first _ rpre rule rpost hrpre hrule]
    | cons s' pre' ih =>
      rw [List.cons_append, matchBlockedServicesRules]
      have hnone : s'.rules.find? (fun rule => rule.matchesHostname host) = none :=
        List.find?_eq_none.mpr fun x hx => by
          simp [hpre s' (List.mem_cons_self s' pre') x hx]
      rw [hnone]
      exact ih fun s'' hs'' => hpre s'' (List.mem_cons_of_mem s' hs'')

/-- A blocked-service rule that matches every hostname. -/
def svcRuleX : NetworkRule := { text := "||sx^", matchesHostname := fun _ => true }

/-- A second always-matching blocked-service rule. -/
def svcRuleY : NetworkRule := { text := "||sy^", matchesHostname := fun _ => true }

/-- C6 witness: with two services whose rules both match, the earlier
service is reported, with its rule's text. -/
theorem claim_C6_witness :
    matchBlockedServicesRules "h.example" [⟨"svcA", [svcRuleX]⟩, ⟨"svcB", [svcRuleY]⟩] =
      { reason := FilteredBlockedService, isFiltered := true,
        serviceName := "svcA", rule := "||sx^" } :=
  (claim_C6_blocked_services "h.example" [⟨"svcA", [svcRuleX]⟩, ⟨"svcB", [svcRuleY]⟩]).2
    [] ⟨"svcA", [svcRuleX]⟩ [⟨"svcB", [svcRuleY]⟩] rfl (by simp)
    [] svcRuleX [] rfl (by simp) rfl

/-- C7: a burst of asynchronous `SetFilters` calls, completing before the
worker consumes anything, leaves exactly the most recent request in the
single-slot queue, and the worker's next turn runs `initFiltering` on
precisely that last-submitted filter set (intermediate requests are gone). -/
theorem claim_C7_coalescing (ext : ExtDeps) (d : Dnsfilter)
    (ps : List (List Filter × List Filter)) (h : ps ≠ []) :
    (ps.foldl (fun s p => (SetFilters ext s p.1 p.2 true).1) d).chanQ =
      [⟨(ps.getLast h).1, (ps.getLast h).2⟩] ∧
    filtersInitializerStep ext (ps.foldl (fun s p => (SetFilters ext s p.1 p.2 true).1) d) =
      (initFiltering ext
        { ps.foldl (fun s p => (SetFilters ext s p.1 p.2 true).1) d with chanQ := [] }
        (ps.getLast h).1 (ps.getLast h).2).1 := by
  have h1 := foldl_setFilters_chanQ ext ps h d
  refine ⟨h1, ?_⟩
  simp only [filtersInitializerStep, h1]

/-- Concrete filter lists for the C7 witness. -/
def filtA : Filter := { id := 1, filePath := "/f1.txt" }

def filtB : Filter := { id := 2, filePath := "/f2.txt" }

def filtC : Filter := { id := 3, filePath := "/f3.txt" }

/-- C7 witness: three back-to-back asynchronous requests leave only the
third in the queue. -/
theorem claim_C7_witness :
    (([([filtA], []), ([filtB], []), ([filtC], [])] :
        List (List Filter × List Filter)).foldl
      (fun s p => (SetFilters {} s p.1 p.2 true).1) {}).chanQ = [⟨[filtC], []⟩] :=
  (claim_C7_coalescing {} {} [([filtA], []), ([filtB], []), ([filtC], [])] (by simp)).1

/-- C3: `processRewrites` terminates on every table and host — it is defined
above by well-founded recursion that mirrors the source's cycle guard — and
on a CNAME cycle `a → b → a` it stops when the repeat is detected and
returns the Result accumulated so far: a rewrite Reason, CanonName the last
distinct canonical name substituted before the repeat (which is `a`), and an
empty IPList. -/
theorem claim_C3_rewrite_cycle (rews : List RewriteEntry) (a b : String) (qtype : Nat)
    (e1 e2 : RewriteEntry) (r1 r2 : List RewriteEntry)
    (h1 : findRewrites rews a = e1 :: r1) (ht1 : e1.rtype = typeCNAME) (ha1 : e1.answer = b)
    (h2 : findRewrites rews b = e2 :: r2) (ht2 : e2.rtype = typeCNAME) (ha2 : e2.answer = a) :
    processRewrites rews a qtype = { reason := ReasonRewrite, canonName := a } := by
  rw [processRewrites]
  simp only [h1]
  rw [if_neg (by simp)]
  by_cases hab : a = b
  · subst hab
    rw [processRewritesLoop_stepNew rews qtype e1 r1 ∅ _ ht1 (by simp), ha1, h1]
    rw [processRewritesLoop_stepRepeat rews qtype e1 r1 _ _ ht1 (by simp [ha1])]
  · rw [processRewritesLoop_stepNew rews qtype e1 r1 ∅ _ ht1 (by simp), ha1, h2]
    rw [processRewritesLoop_stepNew rews qtype e2 r2 _ _ ht2
      (by simp [ha2, ha1]; exact hab)]
    rw [ha2, h1]
    rw [processRewritesLoop_stepRepeat rews qtype e1 r1 _ _ ht1 (by simp [ha1])]

/-- A two-entry rewrite table forming the CNAME cycle
`a.example → b.example → a.example`. -/
def rewsCycle : List RewriteEntry :=
  [⟨"a.example", "b.example", 5, []⟩, ⟨"b.example", "a.example", 5, []⟩]

/-- C3 witness: the concrete two-element cycle terminates with CanonName
`a.example` and no addresses. -/
theorem claim_C3_witness :
    processRewrites rewsCycle "a.example" 1 =
      { reason := ReasonRewrite, canonName := "a.example" } :=
  claim_C3_rewrite_cycle rewsCycle "a.example" "b.example" 1
    ⟨"a.example", "b.example", 5, []⟩ ⟨"b.example", "a.example", 5, []⟩ [] []
    (by decide) (by decide) (by decide) (by decide) (by decide) (by decide)

/-- A rewrite table whose matching set for `h.example` starts with a
non-CNAME entry but also contains a CNAME-typed entry. -/
def rewsC8 : List RewriteEntry :=
  [⟨"h.example", "", 1, [1, 2, 3, 4]⟩, ⟨"h.example", "x.example", 5, []⟩]

/-- C8 counterexample: for the query type `TypeCNAME`, the final entry set
(exited immediately: its head has type A) contains an entry whose type
equals the queried type, so the claim predicts its address gets appended —
but the code's scan also requires the entry's type to differ from CNAME, so
the actual IPList is empty, not the predicted one-element list. -/
theorem claim_C8_counterexample :
    (findRewrites rewsC8 "h.example").head?.map RewriteEntry.rtype = some typeA ∧
    ((findRewrites rewsC8 "h.example").filter
        (fun r => r.rtype == typeCNAME)).map RewriteEntry.ip = [[]] ∧
    (processRewrites rewsC8 "h.example" typeCNAME).ipList = [] := by
  refine ⟨by decide, by decide, ?_⟩
  have h1 : findRewrites rewsC8 "h.example" =
      [⟨"h.example", "", 1, [1, 2, 3, 4]⟩, ⟨"h.example", "x.example", 5, []⟩] := by decide
  rw [processRewrites]
  simp only [h1]
  rw [if_neg (by simp)]
  rw [processRewritesLoop_exitHead _ _ _ _ _ _ (by decide)]
  rw [applyRewriteAnswers_eq]
  decide

/-- C8 (amended): when the rewrite CNAME loop exits on an empty or
non-CNAME-headed entry set, it appends to the Result's IPList, in table
order, the address of every entry of that final set whose type equals the
queried type and is not CNAME (so a CNAME-type query collects no
addresses); entries of any other type at that final host are ignored. -/
theorem claim_C8_final_scan (rews : List RewriteEntry) (qtype : Nat)
    (rr : List RewriteEntry) (cnames : Finset String) (res : Result)
    (h : rr = [] ∨ ∃ e rest, rr = e :: rest ∧ e.rtype ≠ typeCNAME) :
    processRewritesLoop rews qtype rr cnames res =
      { res with ipList := res.ipList ++
          (rr.filter (fun r => r.rtype != typeCNAME && r.rtype == qtype)).map RewriteEntry.ip } := by
  rcases h with rfl | ⟨e, rest, rfl, ht⟩
  · rw [processRewritesLoop_nil]
    simp
  · rw [processRewritesLoop_exitHead _ _ _ _ _ _ ht, applyRewriteAnswers_eq]

/-- C8 witness: a final set with two A-record entries for the same host
yields both addresses, in table order. -/
theorem claim_C8_witness :
    processRewritesLoop [] typeA
      [⟨"h.example", "", 1, [1, 2, 3, 4]⟩, ⟨"h.example", "", 1, [5, 6, 7, 8]⟩] ∅
      { reason := ReasonRewrite } =
      { reason := ReasonRewrite, ipList := [[1, 2, 3, 4], [5, 6, 7, 8]] } := by
  rw [claim_C8_final_scan [] typeA _ ∅ _ (Or.inr ⟨_, _, rfl, by decide⟩)]
  decide

/-- C4: `matchHost` implements the four-step resolution policy. Given an
installed engine whose match yields outcome `rr`: (1) a network rule wins
unconditionally — whitelist rules give `NotFilteredWhiteList` unfiltered,
others `FilteredBlackList` filtered; (2) host rules of the queried type (A
with IPv4 rules, AAAA with IPv6 rules) report the first rule's address with
`FilteredBlackList`; (3) host rules only of a different type report
`FilteredBlackList` with the first rule's metadata and an empty address;
(4) otherwise the zero Result. All with a nil error. -/
theorem claim_C4_matchHost_policy (d : Dnsfilter) (host : String) (qtype : Nat)
    (ctags : List String) (white : Bool) (eng : Engine) (rr : DNSResult)
    (hL : d.engineLockHeld = false)
    (hE : (if white then d.filteringEngineWhite else d.filteringEngine) = some eng)
    (hM : eng host ctags = some rr) :
    (∀ nr, rr.networkRule = some nr →
      matchHost d host qtype ctags white =
        some ({ filterID := nr.filterListID, rule := nr.text,
                reason := if nr.whitelist then NotFilteredWhiteList else FilteredBlackList,
                isFiltered := !nr.whitelist }, none)) ∧
    (rr.networkRule = none → ∀ r rs,
      (qtype = typeA → rr.hostRulesV4 = r :: rs →
        matchHost d host qtype ctags white =
          some ({ filterID := r.filterListID, rule := r.text,
                  reason := FilteredBlackList, isFiltered := true,
                  ip := ipTo4 r.ip }, none)) ∧
      (qtype = typeAAAA → rr.hostRulesV6 = r :: rs →
        matchHost d host qtype ctags white =
          some ({ filterID := r.filterListID, rule := r.text,
                  reason := FilteredBlackList, isFiltered := true,
                  ip := r.ip }, none))) ∧
    (rr.networkRule = none →
      ¬(qtype = typeA ∧ rr.hostRulesV4 ≠ []) →
      ¬(qtype = typeAAAA ∧ rr.hostRulesV6 ≠ []) →
      ((∀ r rs, rr.hostRulesV4 = r :: rs →
          matchHost d host qtype ctags white =
            some ({ reason := FilteredBlackList, isFiltered := true,
                    filterID := r.filterListID, rule := r.text, ip := [] }, none)) ∧
       (rr.hostRulesV4 = [] → ∀ r rs, rr.hostRulesV6 = r :: rs →
          matchHost d host qtype ctags white =
            some ({ reason := FilteredBlackList, isFiltered := true,
                    filterID := r.filterListID, rule := r.text, ip := [] }, none)))) ∧
    (rr.networkRule = none → rr.hostRulesV4 = [] → rr.hostRulesV6 = [] →
      matchHost d host qtype ctags white = some ({}, none)) := by
  have hmain : matchHost d host qtype ctags white =
      some (match rr.networkRule with
        | some nr =>
          ({ filterID := nr.filterListID, rule := nr.text,
             reason := if nr.whitelist then NotFilteredWhiteList else FilteredBlackList,
             isFiltered := !nr.whitelist }, none)
        | none =>
          if qtype == typeA && !rr.hostRulesV4.isEmpty then
            ({ filterID := (rr.hostRulesV4.headD hostRuleDefault).filterListID,
               rule := (rr.hostRulesV4.headD hostRuleDefault).text,
               reason := FilteredBlackList, isFiltered := true,
               ip := ipTo4 (rr.hostRulesV4.headD hostRuleDefault).ip }, none)
          else if qtype == typeAAAA && !rr.hostRulesV6.isEmpty then
            ({ filterID := (rr.hostRulesV6.headD hostRuleDefault).filterListID,
               rule := (rr.hostRulesV6.headD hostRuleDefault).text,
               reason := FilteredBlackList, isFiltered := true,
               ip := (rr.hostRulesV6.headD hostRuleDefault).ip }, none)
          else if !rr.hostRulesV4.isEmpty || !rr.hostRulesV6.isEmpty then
            ({ reason := FilteredBlackList, isFiltered := true,
               filterID := ((if !rr.hostRulesV4.isEmpty then rr.hostRulesV4.headD hostRuleDefault
                 else rr.hostRulesV6.headD hostRuleDefault)).filterListID,
               rule := ((if !rr.hostRulesV4.isEmpty then rr.hostRulesV4.headD hostRuleDefault
                 else rr.hostRulesV6.headD hostRuleDefault)).text, ip := [] }, none)
          else ({}, none)) := by
    unfold matchHost
    rw [if_neg (by simp [hL])]
    rw [hE]
    dsimp only
    rw [hM]
  refine ⟨?_, ?_, ?_, ?_⟩
  · intro nr hnr
    rw [hmain, hnr]
  · intro hnet r rs
    constructor
    · intro hq h4
      subst hq
      rw [hmain, hnet, h4]
      simp
    · intro hq h6
      subst hq
      rw [hmain, hnet, h6]
      have h64 : ¬(typeAAAA == typeA && !rr.hostRulesV4.isEmpty) = true := by
        simp [typeA, typeAAAA]
      rw [if_neg h64]
      simp
  · intro hnet hn4 hn6
    constructor
    · intro r rs h4
      rw [hmain, hnet]
      have hqa : qtype ≠ typeA := fun hq => hn4 ⟨hq, by simp [h4]⟩
      rw [if_neg (by simp [hqa])]
      have hc2 : ¬(qtype == typeAAAA && !rr.hostRulesV6.isEmpty) = true := by
        intro hcontra
        rw [Bool.and_eq_true, beq_iff_eq] at hcontra
        obtain ⟨hq, h6⟩ := hcontra
        refine hn6 ⟨hq, fun h6e => ?_⟩
        rw [h6e] at h6
        simp at h6
      rw [if_neg hc2]
      rw [if_pos (by simp [h4])]
      simp [h4]
    · intro h4 r rs h6
      rw [hmain, hnet]
      have hqa : ¬(qtype == typeA && !rr.hostRulesV4.isEmpty) = true := by
        simp [h4]
      rw [if_neg hqa]
      have hq6 : qtype ≠ typeAAAA := fun hq => hn6 ⟨hq, by simp [h6]⟩
      rw [if_neg (by simp [hq6])]
      rw [if_pos (by simp [h6])]
      simp [h4, h6]
  · intro hnet h4 h6
    rw [hmain, hnet]
    simp [h4, h6]

/-- A block engine that matches every host with one blocking network rule. -/
def engC4 : Engine := fun _ _ =>
  some { networkRule := some { whitelist := false, text := "||w.example^", filterListID := 7 } }

/-- A `Dnsfilter` whose block pair is `engC4`. -/
def dC4 : Dnsfilter := { filteringEngine := some engC4 }

/-- C4 witness: the network-rule case at a concrete input. -/
theorem claim_C4_witness :
    matchHost dC4 "w.example" typeA [] false =
      some ({ isFiltered := true, reason := FilteredBlackList,
              rule := "||w.example^", filterID := 7 }, none) := by
  have h := (claim_C4_matchHost_policy dC4 "w.example" typeA [] false engC4
    { networkRule := some { whitelist := false, text := "||w.example^", filterListID := 7 } }
    rfl rfl rfl).1
    { whitelist := false, text := "||w.example^", filterListID := 7 } rfl
  simpa using h

/-- C9: `CheckHost` and `CheckHostRules` always return a nil error, for
every host, query type, client-tag list, settings, engine state and
classifier behaviour: `matchHost` is nil-error on all paths and classifier
errors are swallowed. -/
theorem claim_C9_nil_errors (d : Dnsfilter) (host : String) (qtype : Nat)
    (setts : RequestFilteringSettings) :
    errOf (CheckHost d host qtype setts) = none ∧
    errOf (CheckHostRules d host qtype setts) = none := by
  constructor
  · unfold CheckHost
    split
    · rfl
    · dsimp only
      split
      · rfl
      · cases hf : checkHostFilters d (strToLower host) qtype setts with
        | none => rfl
        | some oo =>
          cases oo with
          | some out =>
            have := checkHostFilters_snd d (strToLower host) qtype setts out hf
            simp [errOf, this]
          | none =>
            simp only [errOf, Option.some_bind]
            split
            · rename_i out heq
              have hout : out.2 = none := by
                split at heq
                · split at heq
                  · injection heq with heq; subst heq; rfl
                  · exact absurd heq (by simp)
                · exact absurd heq (by simp)
              exact hout
            · split
              · rename_i out heq
                exact checkHostClassifier_snd _ _ _ _ heq
              · split
                · rename_i out heq
                  exact checkHostClassifier_snd _ _ _ _ heq
                · split
                  · rename_i out heq
                    exact checkHostClassifier_snd _ _ _ _ heq
                  · rfl
  · unfold CheckHostRules
    split
    · rfl
    · cases hm : matchHost d host qtype setts.clientTags false with
      | none => rfl
      | some p =>
        have := matchHost_snd d host qtype setts.clientTags false p hm
        simp [errOf, this]

/-- A block engine that answers every host with a blocking network rule. -/
def engBlack : Engine := fun _ _ =>
  some { networkRule := some { whitelist := false, text := "||bad.example^", filterListID := 1 } }

/-- An allow engine that answers every host with a whitelist network rule. -/
def engWhite : Engine := fun _ _ =>
  some { networkRule := some { whitelist := true, text := "@@||bad.example^", filterListID := 2 } }

/-- A blocked-service rule that matches every hostname. -/
def svcRuleC2 : NetworkRule := { text := "||bad.example^", matchesHostname := fun _ => true }

/-- A `Dnsfilter` whose block pair blacklists and allow pair whitelists
every host. -/
def dC2 : Dnsfilter := { filteringEngine := some engBlack, filteringEngineWhite := some engWhite }

/-- Settings with filtering enabled and one blocked service whose rule also
matches the host. -/
def settsC2 : RequestFilteringSettings :=
  { filteringEnabled := true, servicesRules := [⟨"svcC2", [svcRuleC2]⟩] }

/-- C2 counterexample: at this input the claim's hypotheses hold (filtering
enabled, the block-pair match is `FilteredBlackList`, the allow-pair match
is matched), yet `CheckHost` does not return the zero Result — the pipeline
continues past the cancelled rule-list stage and the blocked-service stage
matches. -/
theorem claim_C2_counterexample :
    settsC2.filteringEnabled = true ∧
    (matchHost dC2 "bad.example" typeA settsC2.clientTags false).map
      (fun p => (p.1.reason, p.2)) = some (FilteredBlackList, none) ∧
    (matchHost dC2 "bad.example" typeA settsC2.clientTags true).map
      (fun p => (reasonMatched p.1.reason, p.2)) = some (true, none) ∧
    CheckHost dC2 "bad.example" typeA settsC2 ≠ some ({}, none) := by
  refine ⟨rfl, by decide, by decide, ?_⟩
  have h1 : CheckHost dC2 "bad.example" typeA settsC2 =
      some ({ reason := FilteredBlockedService, isFiltered := true,
              serviceName := "svcC2", rule := "||bad.example^" }, none) := by
    unfold CheckHost
    rw [if_neg (by decide)]
    dsimp only
    rw [show strToLower "bad.example" = "bad.example" by decide]
    rw [processRewrites_noMatch dC2.rewrites "bad.example" typeA (by decide)]
    rw [if_neg (by decide)]
    rw [show checkHostFilters dC2 "bad.example" typeA settsC2 = some none by decide]
    decide
  rw [h1]
  decide

/-- C2 (amended): when filtering is enabled and, at the lower-cased host,
the block-pair match yields `FilteredBlackList` while the allow-pair match
yields any matched Reason, the rule-list stage's net decision is overridden
to the zero Result and no whitelist reason is surfaced; provided
additionally that no rewrite matches the host and no later stage is in play
(no blocked-service rules, safe search / safe browsing / parental
disabled), `CheckHost` returns the zero Result with a nil error. -/
theorem claim_C2_blacklist_whitelist_cancel (d : Dnsfilter) (host : String)
    (qtype : Nat) (setts : RequestFilteringSettings) (rb rwt : Result)
    (h0 : host ≠ "")
    (hfe : setts.filteringEnabled = true)
    (hrw : (processRewrites d.rewrites (strToLower host) qtype).reason ≠ ReasonRewrite)
    (hb : matchHost d (strToLower host) qtype setts.clientTags false = some (rb, none))
    (hbr : rb.reason = FilteredBlackList)
    (hw : matchHost d (strToLower host) qtype setts.clientTags true = some (rwt, none))
    (hwm : reasonMatched rwt.reason = true)
    (hsvc : setts.servicesRules = [])
    (hss : setts.safeSearchEnabled = false)
    (hsb : setts.safeBrowsingEnabled = false)
    (hp : setts.parentalEnabled = false) :
    CheckHost d host qtype setts = some ({}, none) := by
  have hcf : checkHostFilters d (strToLower host) qtype setts = some none := by
    unfold checkHostFilters
    rw [if_pos hfe, hb]
    dsimp only
    rw [if_neg (by simp)]
    rw [if_pos (by simp [hbr])]
    rw [hw]
    dsimp only
    rw [if_neg (by simp)]
    have hwm' : rwt.reason ≠ 0 := by
      simpa [reasonMatched, NotFilteredNotFound] using hwm
    simp [hwm, reasonMatched, NotFilteredNotFound, hwm']
  unfold CheckHost
  rw [if_neg (by simp [h0])]
  dsimp only
  rw [if_neg (by simp [hrw])]
  rw [hcf]
  simp [hsvc, hss, hsb, hp, checkHostClassifier]

/-- Settings with only filtering enabled. -/
def settsW2 : RequestFilteringSettings := { filteringEnabled := true }

/-- C2 witness: with both pairs matching and no later stage in play, the
pipeline's net decision is the zero Result. -/
theorem claim_C2_witness :
    CheckHost dC2 "bad.example" typeA settsW2 = some ({}, none) :=
  claim_C2_blacklist_whitelist_cancel dC2 "bad.example" typeA settsW2
    { isFiltered := true, reason := FilteredBlackList, rule := "||bad.example^", filterID := 1 }
    { isFiltered := false, reason := NotFilteredWhiteList, rule := "@@||bad.example^", filterID := 2 }
    (by decide) rfl
    (by rw [processRewrites_noMatch dC2.rewrites (strToLower "bad.example") typeA (by decide)]
        decide)
    (by decide) rfl (by decide) (by decide) rfl rfl rfl rfl

/-- C1 (code bug): when building either pair fails, `initFiltering` has
already closed the previously installed storages (`reset` runs before the
builds) and returns while still holding the engine write lock (the Go code
has no unlock on the error paths), so the prior state is not left
answering queries unchanged: every subsequent `matchHost` blocks forever on
`RLock` instead of returning its previous Result. -/
theorem claim_C1_failed_rebuild (ext : ExtDeps) (d : Dnsfilter)
    (filters whiteFilters : List Filter) (d' : Dnsfilter) (e : String)
    (h : initFiltering ext d filters whiteFilters = (d', some e)) :
    d'.engineLockHeld = true ∧
    (∀ s, d.rulesStorage = some s → s ∈ d'.closedStorages) ∧
    (∀ s, d.rulesStorageWhite = some s → s ∈ d'.closedStorages) ∧
    (∀ host qtype ctags white, matchHost d' host qtype ctags white = none) := by
  unfold initFiltering at h
  dsimp only at h
  rcases hb : createFilteringEngine ext filters with eb | ⟨rs, fe⟩ <;> rw [hb] at h
  · rw [Prod.mk.injEq] at h
    obtain ⟨hd, _⟩ := h
    subst hd
    refine ⟨rfl, ?_, ?_, ?_⟩
    · intro s hs
      simp [reset, hs]
    · intro s hs
      simp [reset, hs]
    · intro host qtype ctags white
      simp [matchHost, reset]
  · rcases hw : createFilteringEngine ext whiteFilters with ew | ⟨rsw, few⟩ <;> rw [hw] at h
    · rw [Prod.mk.injEq] at h
      obtain ⟨hd, _⟩ := h
      subst hd
      refine ⟨rfl, ?_, ?_, ?_⟩
      · intro s hs
        simp [reset, hs]
      · intro s hs
        simp [reset, hs]
      · intro host qtype ctags white
        simp [matchHost, reset]
    · rw [Prod.mk.injEq] at h
      exact absurd h.2 (by simp)

/-- External dependencies for the C1 witness: the filter file exists but the
external rule-list constructor rejects it. -/
def extC1 : ExtDeps :=
  { fileExists := fun _ => true,
    newFileRuleList := fun _ _ => .error "cannot parse rule list" }

/-- A `Dnsfilter` with both engine pairs installed (storage handles 7/8). -/
def dC1 : Dnsfilter :=
  { rulesStorage := some 7, filteringEngine := some (fun _ _ => none),
    rulesStorageWhite := some 8, filteringEngineWhite := some (fun _ _ => none) }

/-- The malformed block filter list submitted for the failing rebuild. -/
def filtersC1 : List Filter := [{ id := 1, filePath := "/data/filters/1.txt" }]

/-- C1 witness: after the failed rebuild the lock is still held, the old
storage has been closed, and a match query never returns. -/
theorem claim_C1_witness :
    (initFiltering extC1 dC1 filtersC1 []).1.engineLockHeld = true ∧
    7 ∈ (initFiltering extC1 dC1 filtersC1 []).1.closedStorages ∧
    matchHost (initFiltering extC1 dC1 filtersC1 []).1 "a.example" typeA [] false = none := by
  obtain ⟨h1, h2, _, h4⟩ := claim_C1_failed_rebuild extC1 dC1 filtersC1 []
    (initFiltering extC1 dC1 filtersC1 []).1
    "filterlist.NewFileRuleList(): /data/filters/1.txt: cannot parse rule list"
    (by rfl)
  exact ⟨h1, h2 7 rfl, h4 "a.example" typeA [] false⟩

end AdGuard
